import Mathlib

/-!
Verification of the `bangbang-timed` crate: a two-state (on/off) bang-bang
controller whose transitions are gated by optional per-state minimum dwell
times, over a wrap-prone unsigned 32-bit millisecond clock.

The dwell-constrained controller (`TimeConstrainedOnOff`) and the elapsed-time
assessor (`assess_time_delta`) are translated from `src/lib.rs`.  The
underlying unconstrained two-state machine (`OnOff`, `BangBangState`,
`BangBangError`, the `bang` toggle) lives in the external `bangbang` crate and
is modelled from the spec's collaborator contract (§6).

Machine integers: `u32` values are `Nat` kept below `2 ^ 32` (the clock is
reduced `% 2 ^ 32` at each sample); `core::time::Duration` is represented by
its total length in nanoseconds, on which Rust's duration order coincides.
-/

/-- Modelled from the spec: the logical state of the underlying two-state
machine (`bangbang::BangBangState`), an enumeration of exactly two variants.
`A` is the "off" state and `B` the "on" state (the controller consults
`minimum_off` when current is `A` and `minimum_on` when current is `B`). -/
inductive BangBangState
  | A
  | B
deriving DecidableEq

/-- Modelled from the spec: `bangbang::BangBangError`.
`stateChangeTemporarilyConstrained` carries the current state, the requested
target state and an internal diagnostic code; `callbackError` stands for an
opaque failure reported by a target-state callback, propagated unchanged. -/
inductive BangBangError
  | stateChangeTemporarilyConstrained (fromS toS : BangBangState) (code : Nat)
  | callbackError (tag : Nat)
deriving DecidableEq

/-- `core::time::Duration` as its total length in nanoseconds. -/
abbrev Duration := Nat

/-- `Duration::from_millis`: a whole number of milliseconds, in nanoseconds. -/
def Duration.from_millis (ms : Nat) : Duration := ms * 1000000

/-- A state-change handler (`StateChangeHander` in the source, `dyn FnMut() ->
Result<(), BangBangError>`): `behavior k` is the result of its k-th invocation
(`none` meaning `Ok(())`), and `count` records how many invocations have
happened, so that invocations are observable. -/
structure StateChangeHander where
  behavior : Nat → Option BangBangError
  count : Nat

/-- Modelled from the spec: the underlying unconstrained two-state machine
(`bangbang::OnOff`), holding the current state and one optional handler per
target state. -/
structure OnOff where
  state : BangBangState
  handle_on : Option StateChangeHander
  handle_off : Option StateChangeHander

/-- Modelled from the spec: construction of the collaborator accepts the
initial state plus one optional callback per state variant, and invokes
neither of them. -/
def OnOff.new (on_state : Bool) (handle_on handle_off : Option StateChangeHander) :
    OnOff :=
  { state := if on_state then .B else .A
    handle_on := handle_on
    handle_off := handle_off }

/-- Modelled from the spec: `OnOff::set` invokes the target state's registered
callback (if present) before committing; if the callback fails, the machine's
own state is left unchanged and the failure is returned; if the callback
succeeds (or none is registered), the machine commits to the target state. -/
def OnOff.set (m : OnOff) (target : BangBangState) :
    OnOff × Option BangBangError :=
  match target with
  | .B =>
    match m.handle_on with
    | none => ({ m with state := .B }, none)
    | some c =>
      let r := c.behavior c.count
      let c' : StateChangeHander := { c with count := c.count + 1 }
      match r with
      | some e => ({ m with handle_on := some c' }, some e)
      | none => ({ m with state := .B, handle_on := some c' }, none)
  | .A =>
    match m.handle_off with
    | none => ({ m with state := .A }, none)
    | some c =>
      let r := c.behavior c.count
      let c' : StateChangeHander := { c with count := c.count + 1 }
      match r with
      | some e => ({ m with handle_off := some c' }, some e)
      | none => ({ m with state := .A, handle_off := some c' }, none)

/-- Modelled from the spec: `is_on` convenience predicate over the state. -/
def OnOff.is_on (m : OnOff) : Bool :=
  match m.state with
  | .B => true
  | .A => false

/-- Modelled from the spec: `is_off` convenience predicate over the state. -/
def OnOff.is_off (m : OnOff) : Bool := !m.is_on

/-- `assess_time_delta` from `src/lib.rs`: elapsed milliseconds between two
u32 readings; when `later < prior` the counter is assumed to have wrapped and
the delta is taken to be exactly `later`. -/
def assess_time_delta (prior_milliseconds later_milliseconds : Nat) : Nat :=
  if later_milliseconds < prior_milliseconds then
    later_milliseconds
  else
    later_milliseconds - prior_milliseconds

/-- The dwell-constrained controller from `src/lib.rs`.  The borrowed clock
`&'a CurrentTimeMilliseconds` is modelled as the stream `now` of successive
u32 samples together with `clockIdx`, the number of samples taken so far. -/
structure TimeConstrainedOnOff where
  bang_bang : OnOff
  minimum_on : Option Duration
  minimum_off : Option Duration
  last_changed : Nat
  now : Nat → Nat
  clockIdx : Nat

/-- One call of `(self.now)()`: the next u32 reading, and the controller with
its sample counter advanced. -/
def TimeConstrainedOnOff.sample (c : TimeConstrainedOnOff) :
    Nat × TimeConstrainedOnOff :=
  (c.now c.clockIdx % 2 ^ 32, { c with clockIdx := c.clockIdx + 1 })

/-- `BangBang::state` for the controller: delegates to the inner machine. -/
def TimeConstrainedOnOff.state (c : TimeConstrainedOnOff) : BangBangState :=
  c.bang_bang.state

/-- The minimum-dwell value the `set` of `src/lib.rs` looks up for a current
state: `minimum_off` when current is `A`, `minimum_on` when current is `B`. -/
def TimeConstrainedOnOff.currentMinimum (c : TimeConstrainedOnOff) :
    Option Duration :=
  match c.state with
  | .A => c.minimum_off
  | .B => c.minimum_on

/-- The tail of `set` after the dwell check passes (`src/lib.rs` lines
174–177): delegate to the inner machine; on its failure propagate the error
with no further change, on success re-sample the clock and store the second
sample as `last_changed`. -/
def TimeConstrainedOnOff.delegate (c : TimeConstrainedOnOff)
    (new_state : BangBangState) :
    TimeConstrainedOnOff × Option BangBangError :=
  let dr := c.bang_bang.set new_state
  match dr.2 with
  | some e => ({ c with bang_bang := dr.1 }, some e)
  | none =>
    let c2 := { c with bang_bang := dr.1 }
    let s2 := c2.sample
    ({ s2.2 with last_changed := s2.1 }, none)

/-- `TimeConstrainedOnOff::set` from `src/lib.rs`: read the current state,
sample the clock, assess the elapsed time since `last_changed`, look up the
minimum for the current state; if one is configured and exceeds the elapsed
time (as durations), reject with `StateChangeTemporarilyConstrained`;
otherwise delegate and, on success, re-sample and store `last_changed`. -/
def TimeConstrainedOnOff.set (c : TimeConstrainedOnOff)
    (new_state : BangBangState) :
    TimeConstrainedOnOff × Option BangBangError :=
  let current_state := c.state
  let s := c.sample
  let c1 := s.2
  let time_delta := assess_time_delta c1.last_changed s.1
  match c.currentMinimum with
  | some min_duration =>
    if Duration.from_millis time_delta < min_duration then
      (c1, some (.stateChangeTemporarilyConstrained current_state new_state 0))
    else
      c1.delegate new_state
  | none => c1.delegate new_state

/-- `TimeConstrainedOnOff::new` from `src/lib.rs`: samples the clock once to
initialize `last_changed` and stores the configuration; no callback runs. -/
def TimeConstrainedOnOff.new (on_state : Bool)
    (handle_on handle_off : Option StateChangeHander)
    (minimum_on minimum_off : Option Duration)
    (now : Nat → Nat) : TimeConstrainedOnOff :=
  let last_changed := now 0 % 2 ^ 32
  { bang_bang := OnOff.new on_state handle_on handle_off
    minimum_on := minimum_on
    minimum_off := minimum_off
    last_changed := last_changed
    now := now
    clockIdx := 1 }

/-- Modelled from the spec: `bang()` computes the opposite of the current
state and calls `set`. -/
def TimeConstrainedOnOff.bang (c : TimeConstrainedOnOff) :
    TimeConstrainedOnOff × Option BangBangError :=
  match c.state with
  | .A => c.set .B
  | .B => c.set .A

/-- The elapsed time `set` would assess at the next call: the delta between
the stored `last_changed` and the next clock sample. -/
def TimeConstrainedOnOff.elapsedNow (c : TimeConstrainedOnOff) : Nat :=
  assess_time_delta c.last_changed (c.now c.clockIdx % 2 ^ 32)

/-- C2: for every pair of unsigned 32-bit millisecond readings
`(prior, later)`, the elapsed-time assessor returns `later − prior` when
`later ≥ prior`, and returns exactly `later` when `later < prior`
(the wraparound policy). -/
theorem assess_time_delta_spec (prior later : Nat)
    (_hp : prior < 2 ^ 32) (_hl : later < 2 ^ 32) :
    (prior ≤ later → assess_time_delta prior later = later - prior) ∧
    (later < prior → assess_time_delta prior later = later) := by
  unfold assess_time_delta
  constructor
  · intro h
    simp [Nat.not_lt.mpr h]
  · intro h
    simp [h]

/-- Witness for C2 at the concrete readings (5, 12) ∈ u32 × u32. -/
theorem assess_time_delta_spec_witness :
    (5 ≤ 12 → assess_time_delta 5 12 = 12 - 5) ∧
    (12 < 5 → assess_time_delta 5 12 = 12) :=
  assess_time_delta_spec 5 12 (by norm_num) (by norm_num)

/-- C8: the elapsed-time assessor is total on u32 inputs: it always returns
a value, the result is again a u32, and the subtraction branch is only taken
under the guard `later ≥ prior`, where it is an exact, non-underflowing
difference: `prior + result = later`. -/
theorem assess_time_delta_total (prior later : Nat)
    (hp : prior < 2 ^ 32) (hl : later < 2 ^ 32) :
    assess_time_delta prior later < 2 ^ 32 ∧
    (prior ≤ later → prior + assess_time_delta prior later = later) := by
  unfold assess_time_delta
  constructor
  · split <;> omega
  · intro h
    rw [if_neg (Nat.not_lt.mpr h)]
    omega

/-- Witness for C8 at the concrete readings (7, 1000) ∈ u32 × u32. -/
theorem assess_time_delta_total_witness :
    assess_time_delta 7 1000 < 2 ^ 32 ∧
    (7 ≤ 1000 → 7 + assess_time_delta 7 1000 = 1000) :=
  assess_time_delta_total 7 1000 (by norm_num) (by norm_num)

/-- A handler never reports the controller's own dwell-constraint error
variant (per the spec's error model, callback failures are the distinct
`CallbackRejection` kind). -/
def StateChangeHander.neverConstrained (h : StateChangeHander) : Prop :=
  ∀ k f t cd,
    h.behavior k ≠ some (.stateChangeTemporarilyConstrained f t cd)

/-- Neither registered handler of a machine ever reports the controller's
dwell-constraint error variant. -/
def OnOff.handlersNeverConstrained (m : OnOff) : Prop :=
  (∀ h, m.handle_on = some h → h.neverConstrained) ∧
  (∀ h, m.handle_off = some h → h.neverConstrained)

/-- A handler that succeeds on every invocation. -/
def StateChangeHander.neverFails (h : StateChangeHander) : Prop :=
  ∀ k, h.behavior k = none

/-- Both registered handlers of a machine succeed on every invocation. -/
def OnOff.handlersNeverFail (m : OnOff) : Prop :=
  (∀ h, m.handle_on = some h → h.neverFails) ∧
  (∀ h, m.handle_off = some h → h.neverFails)

/-- The opposite of a two-state value (what `bang` toggles to). -/
def BangBangState.opposite : BangBangState → BangBangState
  | .A => .B
  | .B => .A

/-- Iterated `bang`: the controller after `n` toggle requests. -/
def bangs (c : TimeConstrainedOnOff) : Nat → TimeConstrainedOnOff
  | 0 => c
  | n + 1 => (bangs c n).bang.1

/-- Example controller: starts on, no handlers, both minimums 10 ms, clock
frozen at 0. -/
def exMinBoth : TimeConstrainedOnOff :=
  TimeConstrainedOnOff.new true none none
    (some (Duration.from_millis 10)) (some (Duration.from_millis 10))
    (fun _ => 0)

/-- Example controller: starts on, no handlers, no minimums, clock reading
`100 * i` at the i-th sample. -/
def exRamp : TimeConstrainedOnOff :=
  TimeConstrainedOnOff.new true none none none none (fun i => 100 * i)

/-- Example controller: starts on, an off-handler that always fails with
`callbackError 7`, no minimums, clock frozen at 0. -/
def exFail : TimeConstrainedOnOff :=
  TimeConstrainedOnOff.new true none
    (some ⟨fun _ => some (.callbackError 7), 0⟩) none none (fun _ => 0)

/-- Example controller: starts on, an off-handler that forges the
controller's dwell-constraint error variant, no minimums, clock frozen 0. -/
def cForge : TimeConstrainedOnOff :=
  TimeConstrainedOnOff.new true none
    (some ⟨fun _ => some (.stateChangeTemporarilyConstrained .B .A 0), 0⟩)
    none none (fun _ => 0)

/-- Example controller: starts on, no handlers, `minimum_on` of 10 ms plus
one nanosecond, clock reading `10 * i` at the i-th sample (so the elapsed
time at the first `set` is exactly 10 ms). -/
def exSubMs : TimeConstrainedOnOff :=
  TimeConstrainedOnOff.new true none none
    (some (Duration.from_millis 10 + 1)) none (fun i => 10 * i)

lemma set_eq (c : TimeConstrainedOnOff) (new_state : BangBangState) :
    c.set new_state =
      match c.currentMinimum with
      | some d =>
        if Duration.from_millis c.elapsedNow < d then
          ({ c with clockIdx := c.clockIdx + 1 },
           some (.stateChangeTemporarilyConstrained c.state new_state 0))
        else ({ c with clockIdx := c.clockIdx + 1 }).delegate new_state
      | none => ({ c with clockIdx := c.clockIdx + 1 }).delegate new_state :=
  rfl

lemma delegate_error_eq (c : TimeConstrainedOnOff) (t : BangBangState)
    (e : BangBangError) (h : (c.bang_bang.set t).2 = some e) :
    c.delegate t = ({ c with bang_bang := (c.bang_bang.set t).1 }, some e) := by
  unfold TimeConstrainedOnOff.delegate
  simp only [h]

lemma delegate_success_eq (c : TimeConstrainedOnOff) (t : BangBangState)
    (h : (c.bang_bang.set t).2 = none) :
    c.delegate t =
      ({ c with bang_bang := (c.bang_bang.set t).1,
                clockIdx := c.clockIdx + 1,
                last_changed := c.now c.clockIdx % 2 ^ 32 }, none) := by
  unfold TimeConstrainedOnOff.delegate
  simp only [h]
  rfl

lemma OnOff.set_error_state (m : OnOff) (t : BangBangState)
    (e : BangBangError) (h : (m.set t).2 = some e) :
    (m.set t).1.state = m.state := by
  cases t <;> unfold OnOff.set at h ⊢
  · cases hh : m.handle_off <;> simp only [hh] at h ⊢
    · exact absurd h (by simp)
    · cases hb : (‹StateChangeHander›).behavior _ <;> simp [hb] at h ⊢
  · cases hh : m.handle_on <;> simp only [hh] at h ⊢
    · exact absurd h (by simp)
    · cases hb : (‹StateChangeHander›).behavior _ <;> simp [hb] at h ⊢

lemma OnOff.set_on_none (m : OnOff) (hh : m.handle_on = none) :
    m.set .B = ({ m with state := .B }, none) := by
  simp [OnOff.set, hh]

lemma OnOff.set_off_none (m : OnOff) (hh : m.handle_off = none) :
    m.set .A = ({ m with state := .A }, none) := by
  simp [OnOff.set, hh]

lemma OnOff.set_on_some_ok (m : OnOff) (c : StateChangeHander)
    (hh : m.handle_on = some c) (hb : c.behavior c.count = none) :
    m.set .B =
      ({ m with state := .B,
                handle_on := some { c with count := c.count + 1 } }, none) := by
  simp [OnOff.set, hh, hb]

lemma OnOff.set_off_some_ok (m : OnOff) (c : StateChangeHander)
    (hh : m.handle_off = some c) (hb : c.behavior c.count = none) :
    m.set .A =
      ({ m with state := .A,
                handle_off := some { c with count := c.count + 1 } }, none) := by
  simp [OnOff.set, hh, hb]

lemma OnOff.set_on_some_err (m : OnOff) (c : StateChangeHander)
    (e : BangBangError)
    (hh : m.handle_on = some c) (hb : c.behavior c.count = some e) :
    m.set .B =
      ({ m with handle_on := some { c with count := c.count + 1 } },
       some e) := by
  simp [OnOff.set, hh, hb]

lemma OnOff.set_off_some_err (m : OnOff) (c : StateChangeHander)
    (e : BangBangError)
    (hh : m.handle_off = some c) (hb : c.behavior c.count = some e) :
    m.set .A =
      ({ m with handle_off := some { c with count := c.count + 1 } },
       some e) := by
  simp [OnOff.set, hh, hb]

lemma OnOff.set_no_constrained (m : OnOff) (t : BangBangState)
    (hm : m.handlersNeverConstrained) (f s : BangBangState) (cd : Nat) :
    (m.set t).2 ≠ some (.stateChangeTemporarilyConstrained f s cd) := by
  obtain ⟨hOn, hOff⟩ := hm
  cases t
  · cases hh : m.handle_off with
    | none =>
      rw [OnOff.set_off_none m hh]
      simp
    | some c =>
      cases hb : c.behavior c.count with
      | none =>
        rw [OnOff.set_off_some_ok m c hh hb]
        simp
      | some e =>
        rw [OnOff.set_off_some_err m c e hh hb]
        intro hc
        exact hOff c hh c.count f s cd (hb.trans hc)
  · cases hh : m.handle_on with
    | none =>
      rw [OnOff.set_on_none m hh]
      simp
    | some c =>
      cases hb : c.behavior c.count with
      | none =>
        rw [OnOff.set_on_some_ok m c hh hb]
        simp
      | some e =>
        rw [OnOff.set_on_some_err m c e hh hb]
        intro hc
        exact hOn c hh c.count f s cd (hb.trans hc)

lemma OnOff.set_neverFail (m : OnOff) (t : BangBangState)
    (hm : m.handlersNeverFail) :
    (m.set t).2 = none ∧ (m.set t).1.state = t ∧
    (m.set t).1.handlersNeverFail := by
  obtain ⟨hOn, hOff⟩ := hm
  cases t
  · cases hh : m.handle_off with
    | none =>
      rw [OnOff.set_off_none m hh]
      exact ⟨rfl, rfl, hOn, hOff⟩
    | some c =>
      have hb := hOff c hh c.count
      rw [OnOff.set_off_some_ok m c hh hb]
      refine ⟨rfl, rfl, hOn, ?_⟩
      intro h' hh'
      injection hh' with hh2
      subst hh2
      intro k
      exact hOff c hh k
  · cases hh : m.handle_on with
    | none =>
      rw [OnOff.set_on_none m hh]
      exact ⟨rfl, rfl, hOn, hOff⟩
    | some c =>
      have hb := hOn c hh c.count
      rw [OnOff.set_on_some_ok m c hh hb]
      refine ⟨rfl, rfl, ?_, hOff⟩
      intro h' hh'
      injection hh' with hh2
      subst hh2
      intro k
      exact hOn c hh k

lemma set_rejects_of_lt (c : TimeConstrainedOnOff) (target : BangBangState)
    (d : Duration) (hm : c.currentMinimum = some d)
    (hlt : Duration.from_millis c.elapsedNow < d) :
    c.set target =
      ({ c with clockIdx := c.clockIdx + 1 },
       some (.stateChangeTemporarilyConstrained c.state target 0)) := by
  rw [set_eq c target]
  simp only [hm]
  rw [if_pos hlt]

lemma set_passes_of_ge (c : TimeConstrainedOnOff) (target : BangBangState)
    (d : Duration) (hm : c.currentMinimum = some d)
    (hge : ¬ Duration.from_millis c.elapsedNow < d) :
    c.set target = ({ c with clockIdx := c.clockIdx + 1 }).delegate target := by
  rw [set_eq c target]
  simp only [hm]
  rw [if_neg hge]

lemma set_passes_of_none (c : TimeConstrainedOnOff) (target : BangBangState)
    (hm : c.currentMinimum = none) :
    c.set target = ({ c with clockIdx := c.clockIdx + 1 }).delegate target := by
  rw [set_eq c target]
  simp only [hm]

lemma handlersNone_neverConstrained (m : OnOff)
    (h1 : m.handle_on = none) (h2 : m.handle_off = none) :
    m.handlersNeverConstrained := by
  refine ⟨?_, ?_⟩
  · intro h hh
    rw [h1] at hh
    exact Option.noConfusion hh
  · intro h hh
    rw [h2] at hh
    exact Option.noConfusion hh

lemma delegate_no_constrained (c : TimeConstrainedOnOff) (t : BangBangState)
    (hcb : c.bang_bang.handlersNeverConstrained)
    (f s : BangBangState) (cd : Nat) :
    (c.delegate t).2 ≠ some (.stateChangeTemporarilyConstrained f s cd) := by
  cases he : (c.bang_bang.set t).2 with
  | none =>
    rw [delegate_success_eq c t he]
    simp
  | some e =>
    rw [delegate_error_eq c t e he]
    intro hc
    exact OnOff.set_no_constrained c.bang_bang t hcb f s cd (he.trans hc)

lemma delegate_error_preserves (c : TimeConstrainedOnOff) (t : BangBangState)
    (e : BangBangError) (he : (c.delegate t).2 = some e) :
    (c.delegate t).1.state = c.state ∧
    (c.delegate t).1.last_changed = c.last_changed := by
  cases hms : (c.bang_bang.set t).2 with
  | none =>
    rw [delegate_success_eq c t hms] at he
    exact absurd he (by simp)
  | some e' =>
    rw [delegate_error_eq c t e' hms] at he ⊢
    exact ⟨OnOff.set_error_state c.bang_bang t e' hms, rfl⟩

lemma delegate_success_fields (c : TimeConstrainedOnOff) (t : BangBangState)
    (h : (c.delegate t).2 = none) :
    (c.delegate t).1.last_changed = c.now c.clockIdx % 2 ^ 32 ∧
    (c.delegate t).1.clockIdx = c.clockIdx + 1 := by
  cases hms : (c.bang_bang.set t).2 with
  | some e =>
    rw [delegate_error_eq c t e hms] at h
    exact absurd h (by simp)
  | none =>
    rw [delegate_success_eq c t hms]
    exact ⟨rfl, rfl⟩

lemma bang_eq_A (c : TimeConstrainedOnOff) (hs : c.state = .A) :
    c.bang = c.set .B := by
  unfold TimeConstrainedOnOff.bang
  rw [hs]

lemma bang_eq_B (c : TimeConstrainedOnOff) (hs : c.state = .B) :
    c.bang = c.set .A := by
  unfold TimeConstrainedOnOff.bang
  rw [hs]

lemma opposite_opposite (s : BangBangState) : s.opposite.opposite = s := by
  cases s <;> rfl

lemma currentMinimum_none (c : TimeConstrainedOnOff)
    (h1 : c.minimum_on = none) (h2 : c.minimum_off = none) :
    c.currentMinimum = none := by
  unfold TimeConstrainedOnOff.currentMinimum
  cases hs : c.state
  · exact h2
  · exact h1

lemma bang_step (c : TimeConstrainedOnOff)
    (h1 : c.minimum_on = none) (h2 : c.minimum_off = none)
    (h3 : c.bang_bang.handlersNeverFail) :
    c.bang.2 = none ∧ c.bang.1.state = c.state.opposite ∧
    c.bang.1.minimum_on = none ∧ c.bang.1.minimum_off = none ∧
    c.bang.1.bang_bang.handlersNeverFail := by
  have hmin := currentMinimum_none c h1 h2
  cases hs : c.state
  · obtain ⟨hs2, hst, hnf⟩ := OnOff.set_neverFail c.bang_bang .B h3
    rw [bang_eq_A c hs, set_passes_of_none c .B hmin,
      delegate_success_eq { c with clockIdx := c.clockIdx + 1 } .B hs2]
    refine ⟨rfl, ?_, h1, h2, hnf⟩
    exact hst
  · obtain ⟨hs2, hst, hnf⟩ := OnOff.set_neverFail c.bang_bang .A h3
    rw [bang_eq_B c hs, set_passes_of_none c .A hmin,
      delegate_success_eq { c with clockIdx := c.clockIdx + 1 } .A hs2]
    refine ⟨rfl, ?_, h1, h2, hnf⟩
    exact hst

lemma bangs_invariant (c : TimeConstrainedOnOff)
    (h1 : c.minimum_on = none) (h2 : c.minimum_off = none)
    (h3 : c.bang_bang.handlersNeverFail) :
    ∀ n, (bangs c n).minimum_on = none ∧ (bangs c n).minimum_off = none ∧
      (bangs c n).bang_bang.handlersNeverFail := by
  intro n
  induction n with
  | zero => exact ⟨h1, h2, h3⟩
  | succ k ih =>
    obtain ⟨i1, i2, i3⟩ := ih
    have step := bang_step (bangs c k) i1 i2 i3
    exact ⟨step.2.2.1, step.2.2.2.1, step.2.2.2.2⟩

lemma bangs_parity (c : TimeConstrainedOnOff)
    (h1 : c.minimum_on = none) (h2 : c.minimum_off = none)
    (h3 : c.bang_bang.handlersNeverFail) :
    ∀ n, (bangs c n).state =
      (if n % 2 = 0 then c.state else c.state.opposite) := by
  intro n
  induction n with
  | zero => simp [bangs]
  | succ k ih =>
    obtain ⟨i1, i2, i3⟩ := bangs_invariant c h1 h2 h3 k
    have step := bang_step (bangs c k) i1 i2 i3
    have halt : (bangs c (k + 1)).state = ((bangs c k).state).opposite :=
      step.2.1
    rw [halt, ih]
    by_cases hk : k % 2 = 0
    · rw [if_pos hk, if_neg (by omega)]
    · rw [if_neg hk, if_pos (by omega), opposite_opposite]

/-- C1 (counterexample): the claim's "if and only if" fails as stated,
because a target-state callback may itself report a
`StateChangeTemporarilyConstrained` error, which `set` propagates verbatim:
here no minimum dwell is configured for the current state, yet `set` returns
the dwell-constraint-shaped error carrying the current state and the
requested target. -/
theorem set_constrained_iff_cex :
    ¬ (((cForge.set .A).2 =
          some (.stateChangeTemporarilyConstrained cForge.state .A 0)) ↔
        ∃ d, cForge.currentMinimum = some d ∧
          Duration.from_millis cForge.elapsedNow < d) := by
  intro h
  rcases h.mp (by decide) with ⟨d, hd, _⟩
  rw [show cForge.currentMinimum = none from rfl] at hd
  exact Option.noConfusion hd

/-- C1 (amended): provided no registered callback ever reports the
controller's own `StateChangeTemporarilyConstrained` variant, `set` returns
the dwell-constraint error carrying the current state as from and the
requested target as to iff a minimum dwell is configured for the state
current at the time of the call (not the target state) and that minimum is
strictly greater, as a duration, than the elapsed time computed by the
assessor; when the elapsed time equals the minimum, the transition is
permitted. -/
theorem set_constrained_iff (c : TimeConstrainedOnOff)
    (target : BangBangState)
    (hcb : c.bang_bang.handlersNeverConstrained) :
    ((c.set target).2 =
        some (.stateChangeTemporarilyConstrained c.state target 0)) ↔
      ∃ d, c.currentMinimum = some d ∧
        Duration.from_millis c.elapsedNow < d := by
  constructor
  · intro h
    cases hm : c.currentMinimum with
    | none =>
      rw [set_passes_of_none c target hm] at h
      exact absurd h
        (delegate_no_constrained { c with clockIdx := c.clockIdx + 1 }
          target hcb c.state target 0)
    | some d =>
      by_cases hlt : Duration.from_millis c.elapsedNow < d
      · exact ⟨d, rfl, hlt⟩
      · rw [set_passes_of_ge c target d hm hlt] at h
        exact absurd h
          (delegate_no_constrained { c with clockIdx := c.clockIdx + 1 }
            target hcb c.state target 0)
  · rintro ⟨d, hm, hlt⟩
    rw [set_rejects_of_lt c target d hm hlt]

/-- Witness for C1's amended theorem: the iff instantiated at a concrete
controller (no handlers, both minimums 10 ms, frozen clock). -/
theorem set_constrained_iff_witness :
    ((exMinBoth.set .A).2 =
        some (.stateChangeTemporarilyConstrained exMinBoth.state .A 0)) ↔
      ∃ d, exMinBoth.currentMinimum = some d ∧
        Duration.from_millis exMinBoth.elapsedNow < d :=
  set_constrained_iff exMinBoth .A
    (handlersNone_neverConstrained exMinBoth.bang_bang rfl rfl)

/-- C3: every failing call to `set` — whether a dwell-constraint rejection or
a callback failure in the delegated machine — leaves the controller's current
state and its stored last-transition timestamp unchanged, and a
dwell-constraint rejection leaves the delegated machine (and hence every
callback's invocation count) untouched, so no callback is invoked. -/
theorem set_failure_preserves (c : TimeConstrainedOnOff)
    (target : BangBangState) :
    (∀ e, (c.set target).2 = some e →
      (c.set target).1.state = c.state ∧
      (c.set target).1.last_changed = c.last_changed) ∧
    (∀ d, c.currentMinimum = some d →
      Duration.from_millis c.elapsedNow < d →
      (c.set target).1.bang_bang = c.bang_bang) := by
  constructor
  · intro e he
    cases hm : c.currentMinimum with
    | none =>
      rw [set_passes_of_none c target hm] at he ⊢
      exact delegate_error_preserves { c with clockIdx := c.clockIdx + 1 }
        target e he
    | some d =>
      by_cases hlt : Duration.from_millis c.elapsedNow < d
      · rw [set_rejects_of_lt c target d hm hlt]
        exact ⟨rfl, rfl⟩
      · rw [set_passes_of_ge c target d hm hlt] at he ⊢
        exact delegate_error_preserves { c with clockIdx := c.clockIdx + 1 }
          target e he
  · intro d hm hlt
    rw [set_rejects_of_lt c target d hm hlt]

/-- Witness for C3 at a concrete dwell-rejected call: both conjuncts
instantiated at a controller with a 10 ms minimum and zero elapsed time. -/
theorem set_failure_preserves_witness :
    ((exMinBoth.set .A).1.state = exMinBoth.state ∧
     (exMinBoth.set .A).1.last_changed = exMinBoth.last_changed) ∧
    (exMinBoth.set .A).1.bang_bang = exMinBoth.bang_bang :=
  ⟨(set_failure_preserves exMinBoth .A).1
      (.stateChangeTemporarilyConstrained .B .A 0) (by decide),
   (set_failure_preserves exMinBoth .A).2
      (Duration.from_millis 10) rfl (by decide)⟩

/-- C4: whenever the delegated machine succeeds, `set` stores as the new
last-transition timestamp the second clock sample — the one taken after the
delegation (index `clockIdx + 1`), not the one taken before the dwell check
(index `clockIdx`) — and in total two samples are consumed by the call. -/
theorem set_success_second_sample (c : TimeConstrainedOnOff)
    (target : BangBangState) (h : (c.set target).2 = none) :
    (c.set target).1.last_changed = c.now (c.clockIdx + 1) % 2 ^ 32 ∧
    (c.set target).1.clockIdx = c.clockIdx + 2 := by
  cases hm : c.currentMinimum with
  | none =>
    rw [set_passes_of_none c target hm] at h ⊢
    exact delegate_success_fields { c with clockIdx := c.clockIdx + 1 }
      target h
  | some d =>
    by_cases hlt : Duration.from_millis c.elapsedNow < d
    · rw [set_rejects_of_lt c target d hm hlt] at h
      exact absurd h (by simp)
    · rw [set_passes_of_ge c target d hm hlt] at h ⊢
      exact delegate_success_fields { c with clockIdx := c.clockIdx + 1 }
        target h

/-- Witness for C4 at a concrete successful call, with a clock whose
successive readings differ (reading `100 * i` at the i-th sample), so the
stored value is visibly the second sample. -/
theorem set_success_second_sample_witness :
    (exRamp.set .A).1.last_changed = exRamp.now (exRamp.clockIdx + 1) % 2 ^ 32 ∧
    (exRamp.set .A).1.clockIdx = exRamp.clockIdx + 2 :=
  set_success_second_sample exRamp .A (by decide)

/-- C6: when the dwell constraint is satisfied (no minimum configured for
the current state, or the minimum does not exceed the elapsed time) but the
delegated machine's target-state callback reports failure, `set` returns
that failure unchanged and leaves the current state and the stored
last-transition timestamp unmutated. -/
theorem set_callback_failure_propagates (c : TimeConstrainedOnOff)
    (target : BangBangState) (e : BangBangError)
    (hd : ∀ d, c.currentMinimum = some d →
      d ≤ Duration.from_millis c.elapsedNow)
    (hcb : (c.bang_bang.set target).2 = some e) :
    (c.set target).2 = some e ∧
    (c.set target).1.state = c.state ∧
    (c.set target).1.last_changed = c.last_changed := by
  have hpass : c.set target =
      ({ c with clockIdx := c.clockIdx + 1 }).delegate target := by
    cases hm : c.currentMinimum with
    | none => exact set_passes_of_none c target hm
    | some d => exact set_passes_of_ge c target d hm (Nat.not_lt.mpr (hd d hm))
  rw [hpass,
    delegate_error_eq { c with clockIdx := c.clockIdx + 1 } target e hcb]
  exact ⟨rfl, OnOff.set_error_state c.bang_bang target e hcb, rfl⟩

/-- Witness for C6 at a concrete controller whose off-target callback always
fails with `callbackError 7` and which has no dwell minimums. -/
theorem set_callback_failure_propagates_witness :
    (exFail.set .A).2 = some (.callbackError 7) ∧
    (exFail.set .A).1.state = exFail.state ∧
    (exFail.set .A).1.last_changed = exFail.last_changed :=
  set_callback_failure_propagates exFail .A (.callbackError 7)
    (fun d hd =>
      Option.noConfusion (show (none : Option Duration) = some d from hd))
    (by decide)

/-- C7: for every choice of initial state, callbacks, dwell minimums and
clock, construction samples the clock exactly once (the sample counter of
the fresh controller is 1) to initialize the last-transition timestamp, and
stores both handlers untouched — neither callback is invoked (their
invocation counts are exactly as passed in). -/
theorem new_samples_once_no_callbacks (on_state : Bool)
    (handle_on handle_off : Option StateChangeHander)
    (minimum_on minimum_off : Option Duration) (clock : Nat → Nat) :
    (TimeConstrainedOnOff.new on_state handle_on handle_off minimum_on
        minimum_off clock).clockIdx = 1 ∧
    (TimeConstrainedOnOff.new on_state handle_on handle_off minimum_on
        minimum_off clock).last_changed = clock 0 % 2 ^ 32 ∧
    (TimeConstrainedOnOff.new on_state handle_on handle_off minimum_on
        minimum_off clock).bang_bang.handle_on = handle_on ∧
    (TimeConstrainedOnOff.new on_state handle_on handle_off minimum_on
        minimum_off clock).bang_bang.handle_off = handle_off :=
  ⟨rfl, rfl, rfl, rfl⟩

/-- C10: every dwell-constraint rejection produced by `set` carries
diagnostic code 0 (together with the current state as from and the requested
target as to), regardless of the current state, the target state and the
elapsed time. -/
theorem dwell_rejection_code_zero (c : TimeConstrainedOnOff)
    (target : BangBangState) (d : Duration)
    (hm : c.currentMinimum = some d)
    (hlt : Duration.from_millis c.elapsedNow < d) :
    (c.set target).2 =
      some (.stateChangeTemporarilyConstrained c.state target 0) := by
  rw [set_rejects_of_lt c target d hm hlt]

/-- Witness for C10 at a concrete rejected call. -/
theorem dwell_rejection_code_zero_witness :
    (exMinBoth.set .A).2 =
      some (.stateChangeTemporarilyConstrained exMinBoth.state .A 0) :=
  dwell_rejection_code_zero exMinBoth .A (Duration.from_millis 10) rfl
    (by decide)

/-- C9: the dwell comparison is taken on durations — reject iff
`minimum > Duration::from_millis(elapsed)` with `elapsed` a whole number of
milliseconds — so a configured minimum with a sub-millisecond component
still rejects when the elapsed time equals the minimum's whole-millisecond
part, while for a minimum that is a whole number of milliseconds an elapsed
time equal to it passes the dwell check (the call proceeds to delegation). -/
theorem dwell_millisecond_granularity (c : TimeConstrainedOnOff)
    (target : BangBangState) (m : Nat)
    (hm : c.currentMinimum = some m) :
    (c.elapsedNow = m / 1000000 → ¬ (1000000 ∣ m) →
      (c.set target).2 =
        some (.stateChangeTemporarilyConstrained c.state target 0)) ∧
    (∀ k, m = Duration.from_millis k → c.elapsedNow = k →
      c.set target =
        ({ c with clockIdx := c.clockIdx + 1 }).delegate target) := by
  constructor
  · intro he hnd
    have hmod : m % 1000000 ≠ 0 := fun h => hnd (Nat.dvd_of_mod_eq_zero h)
    have hdm : 1000000 * (m / 1000000) + m % 1000000 = m :=
      Nat.div_add_mod m 1000000
    have hlt : Duration.from_millis c.elapsedNow < m := by
      rw [he]
      show m / 1000000 * 1000000 < m
      omega
    rw [set_rejects_of_lt c target m hm hlt]
  · intro k hk he
    have hge : ¬ Duration.from_millis c.elapsedNow < m := by
      rw [he, hk]
      exact lt_irrefl _
    exact set_passes_of_ge c target m hm hge

/-- Witness for C9 at a concrete controller whose configured minimum is
10 ms + 1 ns and whose elapsed time at the call is exactly 10 ms. -/
theorem dwell_millisecond_granularity_witness :
    ((exSubMs.elapsedNow = (Duration.from_millis 10 + 1) / 1000000 →
        ¬ (1000000 ∣ (Duration.from_millis 10 + 1)) →
        (exSubMs.set .A).2 =
          some (.stateChangeTemporarilyConstrained exSubMs.state .A 0)) ∧
     (∀ k, Duration.from_millis 10 + 1 = Duration.from_millis k →
        exSubMs.elapsedNow = k →
        exSubMs.set .A =
          ({ exSubMs with clockIdx := exSubMs.clockIdx + 1 }).delegate .A)) :=
  dwell_millisecond_granularity exSubMs .A (Duration.from_millis 10 + 1) rfl

/-- C5: for a controller constructed with both minimum-dwell values absent
and callbacks that never fail, every `bang()` in any finite sequence reports
success, the state after the (n+1)-th call is the opposite of the state
after the n-th, and the state strictly alternates starting from the
constructed initial state. -/
theorem bang_alternates (on_state : Bool)
    (handle_on handle_off : Option StateChangeHander) (clock : Nat → Nat)
    (hOn : ∀ h, handle_on = some h → h.neverFails)
    (hOff : ∀ h, handle_off = some h → h.neverFails) (n : Nat) :
    (bangs (TimeConstrainedOnOff.new on_state handle_on handle_off none none
        clock) n).bang.2 = none ∧
    (bangs (TimeConstrainedOnOff.new on_state handle_on handle_off none none
        clock) (n + 1)).state =
      ((bangs (TimeConstrainedOnOff.new on_state handle_on handle_off none
          none clock) n).state).opposite ∧
    (bangs (TimeConstrainedOnOff.new on_state handle_on handle_off none none
        clock) n).state =
      (if n % 2 = 0
       then (TimeConstrainedOnOff.new on_state handle_on handle_off none none
          clock).state
       else ((TimeConstrainedOnOff.new on_state handle_on handle_off none
          none clock).state).opposite) := by
  have h3 : (TimeConstrainedOnOff.new on_state handle_on handle_off none none
      clock).bang_bang.handlersNeverFail := ⟨hOn, hOff⟩
  obtain ⟨i1, i2, i3⟩ := bangs_invariant _ rfl rfl h3 n
  have step := bang_step _ i1 i2 i3
  exact ⟨step.1, step.2.1, bangs_parity _ rfl rfl h3 n⟩

/-- Witness for C5 at a concrete controller (initially on, no handlers,
frozen clock) and the sequence of length 3. -/
theorem bang_alternates_witness :
    (bangs (TimeConstrainedOnOff.new true none none none none
        (fun _ => 0)) 3).bang.2 = none ∧
    (bangs (TimeConstrainedOnOff.new true none none none none
        (fun _ => 0)) (3 + 1)).state =
      ((bangs (TimeConstrainedOnOff.new true none none none none
          (fun _ => 0)) 3).state).opposite ∧
    (bangs (TimeConstrainedOnOff.new true none none none none
        (fun _ => 0)) 3).state =
      (if 3 % 2 = 0
       then (TimeConstrainedOnOff.new true none none none none
          (fun _ => 0)).state
       else ((TimeConstrainedOnOff.new true none none none none
          (fun _ => 0)).state).opposite) :=
  bang_alternates true none none (fun _ => 0)
    (fun _ hh => Option.noConfusion hh) (fun _ hh => Option.noConfusion hh) 3
